import Mathlib

/-!
Shallow embedding of the geniusrise-listeners connectors.

Each Python listener is modelled as a pure step function over the pair
(state-store contents, sink trace).  The state store holds the value
persisted under `self.id` (`none` when no prior state exists); the sink
trace is the ordered list of arguments passed to `self.output.save`.
External events (a poll result, a delivered message, an exception raised
by the transport client) are explicit inductive inputs, and each listener
run is a fold of its step function over an event list, mirroring the
`while True` / iterator loops of the source.
-/

namespace Listeners

/-- The `{"success_count": .., "failure_count": ..}` dict every listener
persists via `self.state.set_state(self.id, ...)`. -/
structure OutcomeState where
  success_count : Nat
  failure_count : Nat
deriving Repr, DecidableEq

/-- The default dict used on first use: `{"success_count": 0, "failure_count": 0}`. -/
def defaultState : OutcomeState := { success_count := 0, failure_count := 0 }

/-- `self.state.get_state(self.id) or {"success_count": 0, "failure_count": 0}`:
the read side of every read-modify-write in the listeners. -/
def readState (store : Option OutcomeState) : OutcomeState :=
  store.getD defaultState

/-- The success branch shared by the listeners: read (or default), bump
`success_count` by one, write back. -/
def recordSuccess (store : Option OutcomeState) : Option OutcomeState :=
  some { readState store with success_count := (readState store).success_count + 1 }

/-- The failure branch shared by the listeners: read (or default), bump
`failure_count` by one, write back. -/
def recordFailure (store : Option OutcomeState) : Option OutcomeState :=
  some { readState store with failure_count := (readState store).failure_count + 1 }

/-! ### Kafka (geniusrise_listeners/kafka.py, `Kafka.listen`)

One loop iteration of `Kafka.listen`.  `consumer.poll(1.0)` yields either
`None` (timeout), an error message (partition EOF or another Kafka error),
or a message whose value is fed to `json.loads`; the poll call itself can
raise (broken connection, auth rejection).  `V` is the type of decoded
JSON values; a raw message is `Option V`, `none` meaning `json.loads`
raises on it. -/

inductive KafkaEvent (V : Type) where
  | pollNone
  | pollErrorEof
  | pollErrorOther
  | pollMsg (raw : Option V)
  | pollRaise
deriving Repr, DecidableEq

/-- One iteration of the `while True` body of `Kafka.listen`: the whole body
sits in `try/except Exception`, so a raising poll or a failing `json.loads`
lands in the `except` branch (failure counted, loop goes on); `None` polls
and error-flagged messages only log. -/
def kafkaStep {V : Type} (s : Option OutcomeState × List V) (e : KafkaEvent V) :
    Option OutcomeState × List V :=
  match e with
  | .pollNone => s
  | .pollErrorEof => s
  | .pollErrorOther => s
  | .pollMsg none => (recordFailure s.1, s.2)
  | .pollMsg (some v) => (recordSuccess s.1, s.2 ++ [v])
  | .pollRaise => (recordFailure s.1, s.2)

/-- The fetch loop of `Kafka.listen` over a finite prefix of poll outcomes. -/
def kafkaRun {V : Type} (s : Option OutcomeState × List V) (evs : List (KafkaEvent V)) :
    Option OutcomeState × List V :=
  evs.foldl kafkaStep s

/-- The poll outcomes the source treats as "no data": a `None` poll result
or a partition-EOF notice (kafka.py lines 107-111). -/
def kafkaEmptyFetch {V : Type} (e : KafkaEvent V) : Prop :=
  e = KafkaEvent.pollNone ∨ e = KafkaEvent.pollErrorEof

instance {V : Type} [DecidableEq V] (e : KafkaEvent V) : Decidable (kafkaEmptyFetch e) := by
  unfold kafkaEmptyFetch; infer_instance

/-! ### RabbitMQ (streaming_spouts/amqp.py, `RabbitMQ._callback` / `RabbitMQ.listen`)

`_callback` wraps its body in `try/except`: a failing `json.loads(body)`
increments `failure_count`; otherwise the enriched dict
`{"data": .., "method": method.routing_key, "properties": dict(properties.headers)}`
is saved and `success_count` incremented.  `listen` wraps connection setup
and `channel.start_consuming()` in one `try/except Exception` whose handler
increments `failure_count` once and falls off the end of the function. -/

structure AmqpEnvelope (V : Type) where
  data : V
  method : String
  properties : List (String × String)
deriving Repr, DecidableEq

/-- One `_callback` invocation; `body` is `none` when `json.loads` raises. -/
def rabbitCallback {V : Type} (rk : String) (hdrs : List (String × String))
    (s : Option OutcomeState × List (AmqpEnvelope V)) (body : Option V) :
    Option OutcomeState × List (AmqpEnvelope V) :=
  match body with
  | none => (recordFailure s.1, s.2)
  | some v => (recordSuccess s.1, s.2 ++ [{ data := v, method := rk, properties := hdrs }])

/-- `RabbitMQ.listen`: deliver `msgs` through the callback; if the connection
then fails (`start_consuming` raises), the outer handler counts one failure
and `listen` returns normally. -/
def rabbitListen {V : Type} (rk : String) (hdrs : List (String × String))
    (s : Option OutcomeState × List (AmqpEnvelope V)) (msgs : List (Option V))
    (connFails : Bool) : Option OutcomeState × List (AmqpEnvelope V) :=
  let t := msgs.foldl (rabbitCallback rk hdrs) s
  if connFails then (recordFailure t.1, t.2) else t

/-! ### Redis Pub/Sub (streaming_spouts/redis_pubsub.py, `RedisPubSub.listen`)

`for message in pubsub.listen()`: entries whose `"type"` is not `"message"`
are skipped silently; for `"message"` entries `json.loads(message["data"])`
may raise (failure counted) or the enriched dict
`{"data": data, "channel": channel}` is saved and success counted. -/

structure PubSubEnvelope (V : Type) where
  data : V
  channel : String
deriving Repr, DecidableEq

inductive PubSubEvent (V : Type) where
  | nonMessage
  | message (raw : Option V)
deriving Repr, DecidableEq

/-- One iteration of the `pubsub.listen()` loop body. -/
def pubsubStep {V : Type} (channel : String)
    (s : Option OutcomeState × List (PubSubEnvelope V)) (e : PubSubEvent V) :
    Option OutcomeState × List (PubSubEnvelope V) :=
  match e with
  | .nonMessage => s
  | .message none => (recordFailure s.1, s.2)
  | .message (some v) => (recordSuccess s.1, s.2 ++ [{ data := v, channel := channel }])

/-- The `RedisPubSub.listen` loop over a finite prefix of pubsub entries. -/
def pubsubRun {V : Type} (channel : String)
    (s : Option OutcomeState × List (PubSubEnvelope V)) (evs : List (PubSubEvent V)) :
    Option OutcomeState × List (PubSubEnvelope V) :=
  evs.foldl (pubsubStep channel) s

/-! ### ZeroMQ (streaming_spouts/zeromq.py, `ZeroMQ.listen`)

`listen` first builds the socket: only `socket_type == "SUB"` is accepted,
anything else raises `ValueError(f"Unsupported socket type: {socket_type}")`
before the receive loop and before any sink or state interaction.  The
`try/except` then wraps the whole `while True` receive loop, so the first
message whose processing raises increments `failure_count` once and ends
`listen`; later messages are never received.  A received message is `none`
when parsing it (the json branch of the `syntax` dispatch) raises. -/

structure ZmqEnvelope (V : Type) where
  data : V
  topic : String
  syn : String
deriving Repr, DecidableEq

/-- The `while True` receive loop of `ZeroMQ.listen` with surrounding
`try/except`: processing stops at the first raising message. -/
def zmqLoop {V : Type} (topic syn : String)
    (s : Option OutcomeState × List (ZmqEnvelope V)) :
    List (Option V) → Option OutcomeState × List (ZmqEnvelope V)
  | [] => s
  | none :: _ => (recordFailure s.1, s.2)
  | some v :: rest =>
      zmqLoop topic syn (recordSuccess s.1, s.2 ++ [{ data := v, topic := topic, syn := syn }]) rest

/-- The text `str(socket_type)` interpolated into the `ValueError` message. -/
def showSockType : Option String → String
  | some s => s
  | none => "None"

/-- `ZeroMQ.listen`: socket construction then the receive loop.  The result
is `Except`: `error` is the `ValueError` escaping before any receive. -/
def zmqListen {V : Type} (topic syn : String) (sockType : Option String)
    (s : Option OutcomeState × List (ZmqEnvelope V)) (msgs : List (Option V)) :
    Except String (Option OutcomeState × List (ZmqEnvelope V)) :=
  if sockType = some "SUB" then Except.ok (zmqLoop topic syn s msgs)
  else Except.error ("Unsupported socket type: " ++ showSockType sockType)

/-! ### Kinesis (streaming_spouts/kinesis.py, `Kinesis.listen`)

`listen` fetches a shard iterator with `ShardIteratorType="LATEST"` and
loops: `get_records` returns a batch plus `NextShardIterator`; each record's
`Data` goes through `json.loads`, the envelope
`{"data": .., "sequence_number": record["SequenceNumber"]}` is saved and
success counted.  The `try` wraps the whole batch: the first raising record
sends control to the `except` (one failure counted), skipping the remaining
records and the `shard_iterator = response["NextShardIterator"]` line.  The
iterator lives only in a local variable; it is never written to the state
store. -/

structure KinesisRecord (V : Type) where
  raw : Option V
  sequence_number : String
deriving Repr, DecidableEq

structure KinesisEnvelope (V : Type) where
  data : V
  sequence_number : String
deriving Repr, DecidableEq

structure KinesisResp (V : Type) where
  records : List (KinesisRecord V)
  nextShardIterator : String
deriving Repr, DecidableEq

inductive KinesisEvent (V : Type) where
  | resp (r : KinesisResp V)
  | getRaise
deriving Repr, DecidableEq

/-- The mutable pieces of `Kinesis.listen`: the store value, the sink trace,
and the local `shard_iterator` variable. -/
structure KinesisSt (V : Type) where
  store : Option OutcomeState
  sink : List (KinesisEnvelope V)
  shard_iterator : String
deriving Repr, DecidableEq

/-- The `for record in response["Records"]` loop; the `Bool` is whether the
whole batch was processed without raising. -/
def kinesisProcess {V : Type} (s : KinesisSt V) :
    List (KinesisRecord V) → KinesisSt V × Bool
  | [] => (s, true)
  | r :: rest =>
      match r.raw with
      | none => ({ s with store := recordFailure s.store }, false)
      | some v =>
          kinesisProcess
            { s with
              store := recordSuccess s.store
              sink := s.sink ++ [{ data := v, sequence_number := r.sequence_number }] }
            rest

/-- One iteration of the `while True` body of `Kinesis.listen`. -/
def kinesisStep {V : Type} (s : KinesisSt V) (e : KinesisEvent V) : KinesisSt V :=
  match e with
  | .resp r =>
      let t := kinesisProcess s r.records
      if t.2 then { t.1 with shard_iterator := r.nextShardIterator } else t.1
  | .getRaise => { s with store := recordFailure s.store }

/-- The fetch loop of `Kinesis.listen`. -/
def kinesisRun {V : Type} (s : KinesisSt V) (evs : List (KinesisEvent V)) : KinesisSt V :=
  evs.foldl kinesisStep s

/-- `Kinesis.listen` from startup: the iterator always starts from the value
returned by `get_shard_iterator(.., ShardIteratorType="LATEST")`; the stored
state plays no part in choosing it. -/
def kinesisListen {V : Type} (store : Option OutcomeState) (latestIterator : String)
    (evs : List (KinesisEvent V)) : KinesisSt V :=
  kinesisRun { store := store, sink := [], shard_iterator := latestIterator } evs

/-! ### Redis Streams (streaming_spouts/redis_streams.py, `RedisStream._listen`)

The persisted dict here also carries `"last_id"`; `I` is the type of stream
entry identifiers (strings in the source; abstract here so the transport's
ordering of positions can be spoken about). -/

structure RSState (I : Type) where
  success_count : Nat
  failure_count : Nat
  last_id : Option I
deriving Repr, DecidableEq

/-- Lines 45-56 of redis_streams.py: the starting read position.
`current_state = self.state.get_state(self.id) or {...,"last_id": last_id}`
followed by the conditional expression choosing between
`current_state["last_id"]`, `"0"` and the `last_id` argument.  States this
listener persists always carry the `"last_id"` key, so the
`"last_id" in current_state` test is true. -/
def resolveLastId (arg : Option String) (stored : Option (RSState String)) : String :=
  let current : RSState String :=
    stored.getD { success_count := 0, failure_count := 0, last_id := arg }
  match arg, current.last_id with
  | none, some s => s
  | none, none => "0"
  | some a, _ => a

/-- Written from the claim, for comparison with `resolveLastId`: an explicit
non-`None` argument wins; otherwise a non-`None` persisted value; otherwise
`"0"`. -/
def claimedLastIdPrecedence (arg : Option String) (storedLastId : Option String) : String :=
  match arg with
  | some a => a
  | none => storedLastId.getD "0"

structure RSEnvelope (I V : Type) where
  data : V
  stream_key : String
  message_id : I
deriving Repr, DecidableEq

/-- The mutable pieces of the `while True` loop of `_listen`: store, sink,
the local `last_id` cursor variable, and the local `current_state` variable
(the failure handler mutates the latter without re-reading the store). -/
structure RSSt (I V : Type) where
  store : Option (RSState I)
  sink : List (RSEnvelope I V)
  last_id : I
  current_state : RSState I
deriving Repr, DecidableEq

/-- The body of `for msg_id, fields in messages`: advance the local
`last_id`, save the enriched dict, then read-modify-write the store with
`success_count` bumped and `last_id` stored. -/
def rsHandleMsg {I V : Type} (stream_key : String) (s : RSSt I V) (m : I × V) : RSSt I V :=
  let lastId := m.1
  let env : RSEnvelope I V := { data := m.2, stream_key := stream_key, message_id := m.1 }
  let current :=
    s.store.getD { success_count := 0, failure_count := 0, last_id := some lastId }
  let current' : RSState I :=
    { current with success_count := current.success_count + 1, last_id := some lastId }
  { store := some current', sink := s.sink ++ [env], last_id := lastId,
    current_state := current' }

/-- `for _, messages in result: for msg_id, fields in messages: ...` -/
def rsProcessBatch {I V : Type} (stream_key : String) (s : RSSt I V)
    (result : List (String × List (I × V))) : RSSt I V :=
  result.foldl (fun t kv => kv.2.foldl (rsHandleMsg stream_key) t) s

/-- The entry identifiers of an `xread` result, in delivery order. -/
def rsBatchIds {I V : Type} (result : List (String × List (I × V))) : List I :=
  (result.map (fun kv => kv.2.map Prod.fst)).flatten

inductive RSEvent (I V : Type) where
  | read (result : List (String × List (I × V)))
  | readRaise
deriving Repr, DecidableEq

/-- One iteration of the inner `while True` with its `try/except`: a raising
`xread` bumps `failure_count` on the stale local `current_state` and writes
that back; the cursor is untouched. -/
def rsStep {I V : Type} (stream_key : String) (s : RSSt I V) (e : RSEvent I V) : RSSt I V :=
  match e with
  | .read result => rsProcessBatch stream_key s result
  | .readRaise =>
      let current' :=
        { s.current_state with failure_count := s.current_state.failure_count + 1 }
      { s with store := some current', current_state := current' }

/-! ### HTTP polling (streaming_spouts/http_polling.py, `RESTAPIPoll.poll_api`)

One `poll_api` call.  The outcome constructors follow the exception routing
of the `try/except HTTPError/except RequestException/except Exception`
chain: an HTTP error status (`raise_for_status`) matches the first handler,
a request-level exception the second — both only log — and any other
exception falls to the generic handler, which counts a failure.  A fully
successful call saves the enriched dict and counts a success. -/

structure PollEnvelope (V : Type) where
  data : V
  url : String
  method : String
  headers : Option (List (String × String))
  params : Option (List (String × String))
deriving Repr, DecidableEq

inductive PollOutcome (V : Type) where
  | ok (v : V)
  | httpStatusError
  | requestError
  | otherError
deriving Repr, DecidableEq

/-- One `poll_api` invocation. -/
def pollApi {V : Type} (url method : String)
    (headers params : Option (List (String × String)))
    (s : Option OutcomeState × List (PollEnvelope V)) (o : PollOutcome V) :
    Option OutcomeState × List (PollEnvelope V) :=
  match o with
  | .ok v =>
      (recordSuccess s.1,
        s.2 ++ [{ data := v, url := url, method := method, headers := headers,
                  params := params }])
  | .httpStatusError => s
  | .requestError => s
  | .otherError => (recordFailure s.1, s.2)

/-- The `while True` of `RESTAPIPoll.listen`: one `poll_api` per iteration. -/
def pollRun {V : Type} (url method : String)
    (headers params : Option (List (String × String)))
    (s : Option OutcomeState × List (PollEnvelope V)) (os : List (PollOutcome V)) :
    Option OutcomeState × List (PollEnvelope V) :=
  os.foldl (pollApi url method headers params) s

/-! ### Spec-side predicates used by the claims -/

/-- A store write that leaves the value alone, or bumps exactly one of the
two counters of the read (or default) value by exactly one. -/
def singleIncrement (before after : Option OutcomeState) : Prop :=
  after = before ∨
  after = some { success_count := (readState before).success_count + 1,
                 failure_count := (readState before).failure_count } ∨
  after = some { success_count := (readState before).success_count,
                 failure_count := (readState before).failure_count + 1 }

instance (b a : Option OutcomeState) : Decidable (singleIncrement b a) := by
  unfold singleIncrement; infer_instance

/-- Pointwise order on the two counters. -/
def countersLE (a b : OutcomeState) : Prop :=
  a.success_count ≤ b.success_count ∧ a.failure_count ≤ b.failure_count

instance (a b : OutcomeState) : Decidable (countersLE a b) := by
  unfold countersLE; infer_instance

/-! ### Helper lemmas -/

/-- Net effect on the store of `a` success writes and `b` failure writes. -/
def bumpStore (st : Option OutcomeState) (a b : Nat) : Option OutcomeState :=
  if a = 0 ∧ b = 0 then st
  else some { success_count := (readState st).success_count + a,
              failure_count := (readState st).failure_count + b }

lemma readState_some (x : OutcomeState) : readState (some x) = x := rfl

lemma bumpStore_recordSuccess (st : Option OutcomeState) (a b : Nat) :
    bumpStore (recordSuccess st) a b = bumpStore st (a + 1) b := by
  have hne : ¬ (a + 1 = 0 ∧ b = 0) := by omega
  by_cases h : a = 0 ∧ b = 0
  · obtain ⟨ha, hb⟩ := h
    subst ha
    subst hb
    simp [bumpStore, recordSuccess, readState_some, hne]
  · simp only [bumpStore, recordSuccess, readState_some, if_neg h, if_neg hne,
      Option.some.injEq, OutcomeState.mk.injEq]
    exact ⟨by omega, trivial⟩

lemma bumpStore_recordFailure (st : Option OutcomeState) (a b : Nat) :
    bumpStore (recordFailure st) a b = bumpStore st a (b + 1) := by
  have hne : ¬ (a = 0 ∧ b + 1 = 0) := by omega
  by_cases h : a = 0 ∧ b = 0
  · obtain ⟨ha, hb⟩ := h
    subst ha
    subst hb
    simp [bumpStore, recordFailure, readState_some, hne]
  · simp only [bumpStore, recordFailure, readState_some, if_neg h, if_neg hne,
      Option.some.injEq, OutcomeState.mk.injEq]
    exact ⟨trivial, by omega⟩

lemma readState_bumpStore_none (a b : Nat) :
    readState (bumpStore none a b) = { success_count := a, failure_count := b } := by
  by_cases h : a = 0 ∧ b = 0
  · obtain ⟨ha, hb⟩ := h
    subst ha
    subst hb
    simp [bumpStore, readState, defaultState]
  · simp [bumpStore, readState, defaultState, h]

lemma countP_isSome_add_isNone {V : Type} (raws : List (Option V)) :
    raws.countP (fun r => r.isSome) + raws.countP (fun r => r.isNone) = raws.length := by
  induction raws with
  | nil => simp
  | cons r rest ih => cases r <;> simp [List.countP_cons] <;> omega

lemma length_filterMap_id {V : Type} (raws : List (Option V)) :
    (raws.filterMap id).length = raws.countP (fun r => r.isSome) := by
  induction raws with
  | nil => simp
  | cons r rest ih => cases r <;> simp [List.countP_cons, ih]

/-- The Kafka loop over a block of delivered messages: counters add up and
the sink receives the decoded values in delivery order. -/
lemma kafkaRun_pollMsgs {V : Type} (s : Option OutcomeState × List V)
    (raws : List (Option V)) :
    kafkaRun s (raws.map KafkaEvent.pollMsg) =
      (bumpStore s.1 (raws.countP (fun r => r.isSome)) (raws.countP (fun r => r.isNone)),
       s.2 ++ raws.filterMap id) := by
  induction raws generalizing s with
  | nil => simp [kafkaRun, bumpStore]
  | cons r rest ih =>
      cases r with
      | none =>
          have : kafkaRun s (((none : Option V) :: rest).map KafkaEvent.pollMsg) =
              kafkaRun (recordFailure s.1, s.2) (rest.map KafkaEvent.pollMsg) := rfl
          rw [this, ih]
          simp [List.countP_cons, bumpStore_recordFailure]
      | some v =>
          have : kafkaRun s ((some v :: rest).map KafkaEvent.pollMsg) =
              kafkaRun (recordSuccess s.1, s.2 ++ [v]) (rest.map KafkaEvent.pollMsg) := rfl
          rw [this, ih]
          simp [List.countP_cons, bumpStore_recordSuccess]

/-- The Redis Pub/Sub loop over a block of `"message"` entries. -/
lemma pubsubRun_messages {V : Type} (channel : String)
    (s : Option OutcomeState × List (PubSubEnvelope V)) (raws : List (Option V)) :
    pubsubRun channel s (raws.map PubSubEvent.message) =
      (bumpStore s.1 (raws.countP (fun r => r.isSome)) (raws.countP (fun r => r.isNone)),
       s.2 ++ (raws.filterMap id).map (fun v => { data := v, channel := channel })) := by
  induction raws generalizing s with
  | nil => simp [pubsubRun, bumpStore]
  | cons r rest ih =>
      cases r with
      | none =>
          have : pubsubRun channel s (((none : Option V) :: rest).map PubSubEvent.message) =
              pubsubRun channel (recordFailure s.1, s.2) (rest.map PubSubEvent.message) := rfl
          rw [this, ih]
          simp [List.countP_cons, bumpStore_recordFailure]
      | some v =>
          have : pubsubRun channel s ((some v :: rest).map PubSubEvent.message) =
              pubsubRun channel
                (recordSuccess s.1, s.2 ++ [{ data := v, channel := channel }])
                (rest.map PubSubEvent.message) := rfl
          rw [this, ih]
          simp [List.countP_cons, bumpStore_recordSuccess]

/-! ### Claims -/

/-- C1 (counterexample): in `Kafka.listen` a connection error raised by
`consumer.poll` after 2 successfully processed messages is caught by the
loop's `except Exception` handler: the persisted state becomes
`success_count = 2, failure_count = 1` (not `failure_count = 0` as claimed),
and the loop keeps running (a later message is still processed), so nothing
escapes the runtime. -/
theorem c1_connection_error_counterexample :
    kafkaRun ((none : Option OutcomeState), ([] : List Nat))
        [KafkaEvent.pollMsg (some 1), KafkaEvent.pollMsg (some 2), KafkaEvent.pollRaise] =
      (some { success_count := 2, failure_count := 1 }, [1, 2]) ∧
    kafkaRun ((none : Option OutcomeState), ([] : List Nat))
        [KafkaEvent.pollMsg (some 1), KafkaEvent.pollMsg (some 2), KafkaEvent.pollRaise] ≠
      (some { success_count := 2, failure_count := 0 }, [1, 2]) ∧
    kafkaRun ((none : Option OutcomeState), ([] : List Nat))
        [KafkaEvent.pollMsg (some 1), KafkaEvent.pollMsg (some 2), KafkaEvent.pollRaise,
         KafkaEvent.pollMsg (some 7)] =
      (some { success_count := 3, failure_count := 1 }, [1, 2, 7]) :=
  ⟨by decide, by decide, by decide⟩

/-- C1 (amended): a connection-level failure raised during the fetch loop is
not fatal and does not propagate.  In `Kafka.listen` it is caught by the
catch-all handler, counted as one failure, and the loop continues with the
remaining events; in `RabbitMQ.listen` the handler around
`start_consuming` counts one failure and `listen` returns normally. -/
theorem c1_amended_connection_error_caught {V : Type} :
    (∀ (s : Option OutcomeState × List V) (pre post : List (KafkaEvent V)),
        kafkaRun s (pre ++ KafkaEvent.pollRaise :: post) =
          kafkaRun (recordFailure (kafkaRun s pre).1, (kafkaRun s pre).2) post) ∧
    (∀ (rk : String) (hdrs : List (String × String))
        (s : Option OutcomeState × List (AmqpEnvelope V)) (msgs : List (Option V)),
        rabbitListen rk hdrs s msgs true =
          (recordFailure (rabbitListen rk hdrs s msgs false).1,
           (rabbitListen rk hdrs s msgs false).2)) := by
  constructor
  · intro s pre post
    simp [kafkaRun, List.foldl_append, kafkaStep]
  · intro rk hdrs s msgs
    simp [rabbitListen]

/-- C2: feeding `Kafka.listen` (resp. `RedisPubSub.listen`) a sequence of N
raw messages of which M fail JSON decoding leaves the persisted state with
`failure_count = M` and `success_count = N - M`, and `output.save` receives
exactly the well-formed messages (for Redis wrapped in the
`{"data": .., "channel": ..}` envelope) in delivery order. -/
theorem c2_malformed_accounting {V : Type} (raws : List (Option V)) (channel : String) :
    ((readState (kafkaRun ((none : Option OutcomeState), ([] : List V))
          (raws.map KafkaEvent.pollMsg)).1).failure_count =
        raws.countP (fun r => r.isNone) ∧
      (readState (kafkaRun ((none : Option OutcomeState), ([] : List V))
          (raws.map KafkaEvent.pollMsg)).1).success_count =
        raws.length - raws.countP (fun r => r.isNone) ∧
      (kafkaRun ((none : Option OutcomeState), ([] : List V))
          (raws.map KafkaEvent.pollMsg)).2 = raws.filterMap id ∧
      (kafkaRun ((none : Option OutcomeState), ([] : List V))
          (raws.map KafkaEvent.pollMsg)).2.length =
        raws.length - raws.countP (fun r => r.isNone)) ∧
    ((readState (pubsubRun channel ((none : Option OutcomeState), ([] : List (PubSubEnvelope V)))
          (raws.map PubSubEvent.message)).1).failure_count =
        raws.countP (fun r => r.isNone) ∧
      (readState (pubsubRun channel ((none : Option OutcomeState), ([] : List (PubSubEnvelope V)))
          (raws.map PubSubEvent.message)).1).success_count =
        raws.length - raws.countP (fun r => r.isNone) ∧
      (pubsubRun channel ((none : Option OutcomeState), ([] : List (PubSubEnvelope V)))
          (raws.map PubSubEvent.message)).2 =
        (raws.filterMap id).map (fun v => { data := v, channel := channel })) := by
  have hsum := countP_isSome_add_isNone raws
  constructor
  · rw [kafkaRun_pollMsgs]
    simp only [readState_bumpStore_none]
    refine ⟨trivial, by omega, by simp, ?_⟩
    simp [length_filterMap_id raws]
    omega
  · rw [pubsubRun_messages]
    simp only [readState_bumpStore_none]
    exact ⟨trivial, by omega, by simp⟩

/-- C6: poll outcomes the Kafka loop classifies as "no data" (a `None` poll
result or a partition-EOF notice) leave the store and the sink untouched,
for any number of consecutive such outcomes. -/
theorem c6_empty_fetch_idempotent {V : Type} (s : Option OutcomeState × List V)
    (evs : List (KafkaEvent V)) (h : ∀ e ∈ evs, kafkaEmptyFetch e) :
    kafkaRun s evs = s := by
  induction evs generalizing s with
  | nil => rfl
  | cons e rest ih =>
      have he : kafkaEmptyFetch e := h e (by simp)
      have hstep : kafkaStep s e = s := by
        rcases he with h1 | h1 <;> subst h1 <;> rfl
      have : kafkaRun s (e :: rest) = kafkaRun (kafkaStep s e) rest := rfl
      rw [this, hstep]
      exact ih s (fun e' he' => h e' (by simp [he']))

/-- C6 witness: three consecutive empty fetches from a concrete state. -/
theorem c6_empty_fetch_idempotent_witness :
    kafkaRun ((some { success_count := 2, failure_count := 1 } : Option OutcomeState),
        ([3] : List Nat))
      [KafkaEvent.pollNone, KafkaEvent.pollErrorEof, KafkaEvent.pollNone] =
      (some { success_count := 2, failure_count := 1 }, [3]) :=
  c6_empty_fetch_idempotent _ _ (by decide)

/-- C3 (counterexample): in `ZeroMQ.listen` the `try/except` wraps the whole
receive loop, so a malformed message followed by a well-formed one leaves
`success_count = 0, failure_count = 1` and an empty sink: the loop did not
continue to the next message (the claim predicts `success_count = 1` and the
second message saved). -/
theorem c3_one_bad_message_counterexample :
    zmqLoop "t" "json" ((none : Option OutcomeState), ([] : List (ZmqEnvelope Nat)))
        [none, some 1] =
      (some { success_count := 0, failure_count := 1 }, []) ∧
    zmqLoop "t" "json" ((none : Option OutcomeState), ([] : List (ZmqEnvelope Nat)))
        [none, some 1] ≠
      (some { success_count := 1, failure_count := 1 },
       [{ data := 1, topic := "t", syn := "json" }]) :=
  ⟨by decide, by decide⟩

/-- C3 (amended): a per-message failure increments `failure_count` by one,
but what follows differs per listener: `ZeroMQ.listen` ends its receive
loop there (subsequent messages are dropped), while `Kinesis.listen` skips
the rest of the current batch and its iterator update and continues with
the next fetch. -/
theorem c3_amended_per_message_failure {V : Type} :
    (∀ (topic syn : String) (s : Option OutcomeState × List (ZmqEnvelope V))
        (rest : List (Option V)),
        zmqLoop topic syn s (none :: rest) = (recordFailure s.1, s.2)) ∧
    (∀ (s : KinesisSt V) (r : KinesisRecord V) (rest : List (KinesisRecord V))
        (tok : String) (evs : List (KinesisEvent V)), r.raw = none →
        kinesisRun s (KinesisEvent.resp { records := r :: rest, nextShardIterator := tok }
            :: evs) =
          kinesisRun { s with store := recordFailure s.store } evs) := by
  constructor
  · intro topic syn s rest
    rfl
  · intro s r rest tok evs h
    obtain ⟨raw, seq⟩ := r
    cases h
    rfl

/-- C3 amended, witness: a malformed first message in each listener. -/
theorem c3_amended_per_message_failure_witness :
    zmqLoop "t" "json" ((none : Option OutcomeState), ([] : List (ZmqEnvelope Nat)))
        [none, some 2] = (recordFailure none, []) ∧
    kinesisRun ({ store := none, sink := [], shard_iterator := "A" } : KinesisSt Nat)
        [KinesisEvent.resp { records := [{ raw := none, sequence_number := "s1" },
                                         { raw := some 5, sequence_number := "s2" }],
                             nextShardIterator := "B" }] =
      kinesisRun { store := recordFailure none, sink := [], shard_iterator := "A" } [] :=
  ⟨c3_amended_per_message_failure.1 "t" "json" _ _,
   c3_amended_per_message_failure.2 _ { raw := none, sequence_number := "s1" } _ "B" [] rfl⟩

/-- C4 (counterexample): an empty `get_records` batch carrying a new
`NextShardIterator` updates only the local `shard_iterator` variable; the
state store is not written at all (it stays `none` here), so no sequence
token is persisted. -/
theorem c4_token_not_persisted_counterexample :
    kinesisRun ({ store := none, sink := [], shard_iterator := "tokA" } : KinesisSt Nat)
        [KinesisEvent.resp { records := [], nextShardIterator := "tokB" }] =
      { store := none, sink := [], shard_iterator := "tokB" } ∧
    (kinesisRun ({ store := none, sink := [], shard_iterator := "tokA" } : KinesisSt Nat)
        [KinesisEvent.resp { records := [], nextShardIterator := "tokB" }]).store = none :=
  ⟨by decide, by decide⟩

/-- C4 (amended): on an empty batch the new token replaces the in-memory
`shard_iterator` (store and sink untouched), and a fresh `listen` always
starts from the `LATEST` shard iterator, ignoring whatever state is
persisted. -/
theorem c4_amended_token_in_memory_only {V : Type} :
    (∀ (s : KinesisSt V) (tok : String),
        kinesisStep s (KinesisEvent.resp { records := [], nextShardIterator := tok }) =
          { s with shard_iterator := tok }) ∧
    (∀ (store : Option OutcomeState) (latest : String),
        (kinesisListen (V := V) store latest []).shard_iterator = latest) := by
  exact ⟨fun s tok => rfl, fun store latest => rfl⟩

/-- C7: any `socket_type` other than `"SUB"` (including `None`) makes
`ZeroMQ.listen` raise the `ValueError` at socket-construction time: the
result is the error for every message list, store and sink, i.e. before any
receive and before any state or sink interaction. -/
theorem c7_bad_socket_type_fails_fast {V : Type} (sockType : Option String)
    (topic syn : String) (s : Option OutcomeState × List (ZmqEnvelope V))
    (msgs : List (Option V)) (h : sockType ≠ some "SUB") :
    zmqListen topic syn sockType s msgs =
      Except.error ("Unsupported socket type: " ++ showSockType sockType) := by
  simp [zmqListen, h]

/-- C7 witness: `socket_type="PUB"` fails fast. -/
theorem c7_bad_socket_type_fails_fast_witness :
    zmqListen "t" "json" (some "PUB")
        ((none : Option OutcomeState), ([] : List (ZmqEnvelope Nat))) [some 1] =
      Except.error ("Unsupported socket type: " ++ showSockType (some "PUB")) :=
  c7_bad_socket_type_fails_fast (some "PUB") "t" "json" _ _ (by decide)

/-- Last element of a list, default `d` when empty — the value a variable
holds after being assigned each element in turn. -/
def lastD {I : Type} (l : List I) (d : I) : I :=
  l.foldl (fun _ i => i) d

lemma lastD_append {I : Type} (xs ys : List I) (d : I) :
    lastD (xs ++ ys) d = lastD ys (lastD xs d) := by
  induction xs generalizing d with
  | nil => rfl
  | cons x xs ih => exact ih x

lemma le_lastD {I : Type} [Preorder I] {b : I} :
    ∀ (l : List I) (d : I), (∀ i ∈ l, b ≤ i) → b ≤ d → b ≤ lastD l d := by
  intro l
  induction l with
  | nil => intro d _ hd; exact hd
  | cons x xs ih =>
      intro d h _
      exact ih x (fun i hi => h i (by simp [hi])) (h x (by simp))

/-- The inner `for msg_id, fields in messages` loop leaves `last_id` at the
last delivered identifier. -/
lemma rsFold_last_id {I V : Type} (stream_key : String) (s : RSSt I V)
    (msgs : List (I × V)) :
    (msgs.foldl (rsHandleMsg stream_key) s).last_id =
      lastD (msgs.map Prod.fst) s.last_id := by
  induction msgs generalizing s with
  | nil => rfl
  | cons m rest ih => exact ih (rsHandleMsg stream_key s m)

/-- The whole `xread` result leaves `last_id` at the last delivered
identifier of the flattened batch. -/
lemma rsProcessBatch_last_id {I V : Type} (stream_key : String) (s : RSSt I V)
    (result : List (String × List (I × V))) :
    (rsProcessBatch stream_key s result).last_id =
      lastD (rsBatchIds result) s.last_id := by
  induction result generalizing s with
  | nil => rfl
  | cons kv rest ih =>
      have h1 : rsProcessBatch stream_key s (kv :: rest) =
          rsProcessBatch stream_key (kv.2.foldl (rsHandleMsg stream_key) s) rest := rfl
      have h2 : rsBatchIds (kv :: rest) = kv.2.map Prod.fst ++ rsBatchIds rest := by
        simp [rsBatchIds]
      rw [h1, ih, h2, lastD_append, rsFold_last_id]

/-- C5: in `RedisStream._listen`, when the `xread` result respects the
transport's ordering (every delivered identifier is at least the current
cursor), the cursor after the batch is at least the cursor before; it lands
on the last delivered identifier (unchanged on an empty batch), and a
failing read leaves it untouched. -/
theorem c5_cursor_monotone {I V : Type} [Preorder I] (stream_key : String)
    (s : RSSt I V) (result : List (String × List (I × V)))
    (h : ∀ i ∈ rsBatchIds result, s.last_id ≤ i) :
    s.last_id ≤ (rsStep stream_key s (RSEvent.read result)).last_id ∧
    (rsStep stream_key s (RSEvent.read result)).last_id =
      lastD (rsBatchIds result) s.last_id ∧
    (rsStep stream_key s (RSEvent.readRaise : RSEvent I V)).last_id = s.last_id := by
  have hlast : (rsStep stream_key s (RSEvent.read result)).last_id =
      lastD (rsBatchIds result) s.last_id := rsProcessBatch_last_id stream_key s result
  refine ⟨?_, hlast, rfl⟩
  rw [hlast]
  exact le_lastD (rsBatchIds result) s.last_id h (le_refl _)

/-- C5 witness: a concrete two-entry batch above cursor 5. -/
theorem c5_cursor_monotone_witness :
    (5 : Nat) ≤ (rsStep "k"
        ({ store := none, sink := [], last_id := 5,
           current_state := { success_count := 0, failure_count := 0, last_id := some 5 } } :
          RSSt Nat Nat)
        (RSEvent.read [("k", [(6, 10), (7, 20)])])).last_id ∧
    (rsStep "k"
        ({ store := none, sink := [], last_id := 5,
           current_state := { success_count := 0, failure_count := 0, last_id := some 5 } } :
          RSSt Nat Nat)
        (RSEvent.read [("k", [(6, 10), (7, 20)])])).last_id =
      lastD (rsBatchIds [("k", [(6, 10), (7, 20)])]) 5 ∧
    (rsStep "k"
        ({ store := none, sink := [], last_id := 5,
           current_state := { success_count := 0, failure_count := 0, last_id := some 5 } } :
          RSSt Nat Nat)
        (RSEvent.readRaise : RSEvent Nat Nat)).last_id = 5 :=
  c5_cursor_monotone "k"
    ({ store := none, sink := [], last_id := 5,
       current_state := { success_count := 0, failure_count := 0, last_id := some 5 } } :
      RSSt Nat Nat)
    [("k", [(6, 10), (7, 20)])] (by decide)

/-- C8 (counterexample): an HTTP error status in `poll_api` is caught by the
`except HTTPError` handler, which only logs: from state
`{success_count: 3, failure_count: 4}` the failure counter stays 4 instead
of becoming 5 as the claim requires. -/
theorem c8_http_error_counterexample :
    ¬ ((readState (pollApi "u" "GET" none none
          ((some { success_count := 3, failure_count := 4 } : Option OutcomeState),
           ([] : List (PollEnvelope Nat))) PollOutcome.httpStatusError).1).failure_count =
        (readState (some { success_count := 3, failure_count := 4 })).failure_count + 1) := by
  decide

/-- C8 (amended): in `poll_api` a successful iteration saves one envelope
and bumps `success_count` by one; an iteration failing with an HTTP error
status or a request-level exception is only logged (store and sink
untouched); only a failure outside those two classes bumps `failure_count`
by one. -/
theorem c8_amended_poll_accounting {V : Type} (url method : String)
    (headers params : Option (List (String × String)))
    (s : Option OutcomeState × List (PollEnvelope V)) :
    (∀ v : V,
      (readState (pollApi url method headers params s (PollOutcome.ok v)).1).success_count =
          (readState s.1).success_count + 1 ∧
      (readState (pollApi url method headers params s (PollOutcome.ok v)).1).failure_count =
          (readState s.1).failure_count ∧
      (pollApi url method headers params s (PollOutcome.ok v)).2 =
        s.2 ++ [{ data := v, url := url, method := method, headers := headers,
                  params := params }]) ∧
    pollApi url method headers params s PollOutcome.httpStatusError = s ∧
    pollApi url method headers params s PollOutcome.requestError = s ∧
    ((readState (pollApi url method headers params s PollOutcome.otherError).1).success_count =
        (readState s.1).success_count ∧
     (readState (pollApi url method headers params s PollOutcome.otherError).1).failure_count =
        (readState s.1).failure_count + 1 ∧
     (pollApi url method headers params s PollOutcome.otherError).2 = s.2) := by
  exact ⟨fun v => ⟨rfl, rfl, rfl⟩, rfl, rfl, rfl, rfl, rfl⟩

/-- C9: every store write of the Kafka, Redis Pub/Sub and HTTP-polling
listeners either leaves the stored value alone or bumps exactly one of the
two counters of the read-or-default value by exactly one (a missing state
reads as `{success_count: 0, failure_count: 0}`); consequently both
counters are non-decreasing along any run. -/
theorem c9_single_increment_and_monotone :
    (∀ (V : Type) (s : Option OutcomeState × List V) (e : KafkaEvent V),
        singleIncrement s.1 (kafkaStep s e).1) ∧
    (∀ (V : Type) (ch : String) (s : Option OutcomeState × List (PubSubEnvelope V))
        (e : PubSubEvent V), singleIncrement s.1 (pubsubStep ch s e).1) ∧
    (∀ (V : Type) (url method : String) (h p : Option (List (String × String)))
        (s : Option OutcomeState × List (PollEnvelope V)) (o : PollOutcome V),
        singleIncrement s.1 (pollApi url method h p s o).1) ∧
    readState none = defaultState ∧
    (∀ (V : Type) (s : Option OutcomeState × List V) (evs : List (KafkaEvent V)),
        countersLE (readState s.1) (readState (kafkaRun s evs).1)) ∧
    (∀ (V : Type) (ch : String) (s : Option OutcomeState × List (PubSubEnvelope V))
        (evs : List (PubSubEvent V)),
        countersLE (readState s.1) (readState (pubsubRun ch s evs).1)) ∧
    (∀ (V : Type) (url method : String) (h p : Option (List (String × String)))
        (s : Option OutcomeState × List (PollEnvelope V)) (os : List (PollOutcome V)),
        countersLE (readState s.1) (readState (pollRun url method h p s os).1)) := by
  have hkafka : ∀ (V : Type) (s : Option OutcomeState × List V) (e : KafkaEvent V),
      singleIncrement s.1 (kafkaStep s e).1 := by
    intro V s e
    cases e with
    | pollNone => exact Or.inl rfl
    | pollErrorEof => exact Or.inl rfl
    | pollErrorOther => exact Or.inl rfl
    | pollMsg raw => cases raw with
      | none => exact Or.inr (Or.inr rfl)
      | some v => exact Or.inr (Or.inl rfl)
    | pollRaise => exact Or.inr (Or.inr rfl)
  have hpubsub : ∀ (V : Type) (ch : String)
      (s : Option OutcomeState × List (PubSubEnvelope V)) (e : PubSubEvent V),
      singleIncrement s.1 (pubsubStep ch s e).1 := by
    intro V ch s e
    cases e with
    | nonMessage => exact Or.inl rfl
    | message raw => cases raw with
      | none => exact Or.inr (Or.inr rfl)
      | some v => exact Or.inr (Or.inl rfl)
  have hpoll : ∀ (V : Type) (url method : String) (h p : Option (List (String × String)))
      (s : Option OutcomeState × List (PollEnvelope V)) (o : PollOutcome V),
      singleIncrement s.1 (pollApi url method h p s o).1 := by
    intro V url method h p s o
    cases o with
    | ok v => exact Or.inr (Or.inl rfl)
    | httpStatusError => exact Or.inl rfl
    | requestError => exact Or.inl rfl
    | otherError => exact Or.inr (Or.inr rfl)
  have hle : ∀ {b a : Option OutcomeState}, singleIncrement b a →
      countersLE (readState b) (readState a) := by
    intro b a h
    rcases h with h | h | h <;> subst h
    · exact ⟨le_refl _, le_refl _⟩
    · exact ⟨Nat.le_succ _, le_refl _⟩
    · exact ⟨le_refl _, Nat.le_succ _⟩
  have hfold : ∀ {σ E : Type} (step : σ → E → σ) (meas : σ → OutcomeState),
      (∀ s e, countersLE (meas s) (meas (step s e))) →
      ∀ (evs : List E) (s : σ), countersLE (meas s) (meas (evs.foldl step s)) := by
    intro σ E step meas hstep evs
    induction evs with
    | nil => intro s; exact ⟨le_refl _, le_refl _⟩
    | cons e rest ih =>
        intro s
        have h1 := hstep s e
        have h2 := ih (step s e)
        exact ⟨h1.1.trans h2.1, h1.2.trans h2.2⟩
  refine ⟨hkafka, hpubsub, hpoll, rfl, ?_, ?_, ?_⟩
  · intro V s evs
    exact hfold kafkaStep (fun t => readState t.1) (fun t e => hle (hkafka V t e)) evs s
  · intro V ch s evs
    exact hfold (pubsubStep ch) (fun t => readState t.1)
      (fun t e => hle (hpubsub V ch t e)) evs s
  · intro V url method h p s os
    exact hfold (pollApi url method h p) (fun t => readState t.1)
      (fun t e => hle (hpoll V url method h p t e)) os s

/-- C10: the starting read position of `RedisStream._listen` follows the
claimed precedence: a non-`None` `last_id` argument wins, else a non-`None`
persisted `last_id`, else `"0"`. -/
theorem c10_last_id_precedence (arg : Option String) (stored : Option (RSState String)) :
    resolveLastId arg stored =
      claimedLastIdPrecedence arg (stored.bind fun st => st.last_id) := by
  cases arg with
  | some a => cases stored <;> rfl
  | none =>
      cases stored with
      | none => rfl
      | some st => cases h : st.last_id <;> simp [resolveLastId, claimedLastIdPrecedence, h]

end Listeners
